import Mathlib

/-!
Verification of the terminal-chat streaming/guardrail/conversation core
(`terminal_chat/cli.py`) through a shallow embedding in Lean.

Conventions of the embedding:
* Python `json.loads` is an external library; it is modelled as a parameter
  `decode : String → Option Json` (`none` = `json.JSONDecodeError`).  Concrete
  examples instantiate it with a finite table listing the exact payloads used.
* Python runtime exceptions that the code can raise and does not catch are
  modelled with `Except PyErr`.
* Python numbers in the pricing table are modelled as exact rationals.
* Python list slicing `l[i:]` (with possibly negative `i`) is modelled by
  `pySliceFrom`, including the `l[-0:] = l` corner case.
-/

namespace TerminalChat

/-- JSON values as produced by `json.loads` (numbers restricted to integers,
which covers every payload exercised here). -/
inductive Json where
  | null
  | bool (b : Bool)
  | num (n : Int)
  | str (s : String)
  | arr (elems : List Json)
  | obj (fields : List (String × Json))
deriving Repr

mutual

/-- Boolean equality on JSON values. -/
def Json.beq : Json → Json → Bool
  | .null, .null => true
  | .bool a, .bool b => a == b
  | .num a, .num b => a == b
  | .str a, .str b => a == b
  | .arr xs, .arr ys => Json.beqList xs ys
  | .obj xs, .obj ys => Json.beqFields xs ys
  | _, _ => false

/-- Boolean equality on JSON arrays. -/
def Json.beqList : List Json → List Json → Bool
  | [], [] => true
  | x :: xs, y :: ys => Json.beq x y && Json.beqList xs ys
  | _, _ => false

/-- Boolean equality on JSON object field lists. -/
def Json.beqFields : List (String × Json) → List (String × Json) → Bool
  | [], [] => true
  | (k, v) :: xs, (k', v') :: ys => k == k' && Json.beq v v' && Json.beqFields xs ys
  | _, _ => false

end

instance : BEq Json := ⟨Json.beq⟩

mutual

theorem Json.eq_of_beq : ∀ {a b : Json}, Json.beq a b = true → a = b
  | .null, .null, _ => rfl
  | .bool _, .bool _, h => by
      simpa [Json.beq] using congrArg Json.bool (by simpa [Json.beq] using h)
  | .num _, .num _, h => by
      simpa using congrArg Json.num (by simpa [Json.beq] using h)
  | .str _, .str _, h => by
      simpa using congrArg Json.str (by simpa [Json.beq] using h)
  | .arr _, .arr _, h => by
      exact congrArg Json.arr (Json.eqList_of_beq (by simpa [Json.beq] using h))
  | .obj _, .obj _, h => by
      exact congrArg Json.obj (Json.eqFields_of_beq (by simpa [Json.beq] using h))

theorem Json.eqList_of_beq : ∀ {xs ys : List Json}, Json.beqList xs ys = true → xs = ys
  | [], [], _ => rfl
  | x :: xs, y :: ys, h => by
      have h' := h
      simp only [Json.beqList, Bool.and_eq_true] at h'
      exact congrArg₂ List.cons (Json.eq_of_beq h'.1) (Json.eqList_of_beq h'.2)

theorem Json.eqFields_of_beq :
    ∀ {xs ys : List (String × Json)}, Json.beqFields xs ys = true → xs = ys
  | [], [], _ => rfl
  | (k, v) :: xs, (k', v') :: ys, h => by
      have h' := h
      simp only [Json.beqFields, Bool.and_eq_true, beq_iff_eq] at h'
      have hk : k = k' := h'.1.1
      have hv : v = v' := Json.eq_of_beq h'.1.2
      have ht : xs = ys := Json.eqFields_of_beq h'.2
      simp [hk, hv, ht]

end

mutual

theorem Json.beq_refl : ∀ a : Json, Json.beq a a = true
  | .null => rfl
  | .bool b => by simp [Json.beq]
  | .num n => by simp [Json.beq]
  | .str s => by simp [Json.beq]
  | .arr xs => by simpa [Json.beq] using Json.beqList_refl xs
  | .obj fs => by simpa [Json.beq] using Json.beqFields_refl fs

theorem Json.beqList_refl : ∀ xs : List Json, Json.beqList xs xs = true
  | [] => rfl
  | x :: xs => by
      simp only [Json.beqList, Bool.and_eq_true]
      exact ⟨Json.beq_refl x, Json.beqList_refl xs⟩

theorem Json.beqFields_refl : ∀ xs : List (String × Json), Json.beqFields xs xs = true
  | [] => rfl
  | (k, v) :: xs => by
      simp [Json.beqFields, Json.beq_refl v, Json.beqFields_refl xs]

end

instance : DecidableEq Json := fun a b =>
  decidable_of_iff (Json.beq a b = true)
    ⟨Json.eq_of_beq, fun h => h ▸ Json.beq_refl a⟩

/-- Python runtime exceptions that the embedded code can raise. -/
inductive PyErr where
  | indexError
  | attributeError
  | typeError
deriving DecidableEq, Repr

/-- Python truthiness (`if x:`) of a JSON value. -/
def jsonTruthy : Json → Bool
  | .null => false
  | .bool b => b
  | .num n => n != 0
  | .str s => s != ""
  | .arr xs => !xs.isEmpty
  | .obj fs => !fs.isEmpty

/-- First binding of a key in a decoded JSON object (Python dicts have unique
keys, so first-match lookup is faithful). -/
def dictGet? (fields : List (String × Json)) (key : String) : Option Json :=
  (fields.find? (fun kv => kv.1 == key)).map (·.2)

/-- Python `obj.get(key, default)`: raises `AttributeError` when the receiver
is not a dict. -/
def pyGetD (j : Json) (key : String) (dflt : Json) : Except PyErr Json :=
  match j with
  | .obj fs => .ok ((dictGet? fs key).getD dflt)
  | _ => .error .attributeError

/-- Python `x[i]` on a decoded JSON value: `IndexError` past the end of a
list, `TypeError` when the receiver is not a list. -/
def pyIndex (j : Json) (i : Nat) : Except PyErr Json :=
  match j with
  | .arr xs =>
      match xs[i]? with
      | some x => .ok x
      | none => .error .indexError
  | _ => .error .typeError

/-- Python whitespace for `str.strip` and `\s` in regexes. -/
def pyIsSpace (c : Char) : Bool :=
  c == ' ' || c == '\t' || c == '\n' || c == '\r' || c == '\x0b' || c == '\x0c'

/-- Python `str.strip()` on a character list. -/
def pyStripList (l : List Char) : List Char :=
  ((l.dropWhile pyIsSpace).reverse.dropWhile pyIsSpace).reverse

/-- Python `str.strip()`. -/
def pyStrip (s : String) : String := String.mk (pyStripList s.toList)

/-- Python `str.lower()` (ASCII, which covers every string exercised here). -/
def pyLower (s : String) : String := String.mk (s.toList.map Char.toLower)

/-- Python `s.startswith(p)`: `p` is a prefix of the character sequence. -/
def pyStartsWith (s p : String) : Bool := p.toList.isPrefixOf s.toList

/-- Python `s[n:]` for a non-negative `n`. -/
def pyDrop (s : String) (n : Nat) : String := String.mk (s.toList.drop n)

/-- One chat message, `{"role": ..., "content": ...}`. -/
structure Message where
  role : String
  content : String
deriving DecidableEq, Repr

/-- Python `l[i:]` for an `Int` index: a negative index counts from the end,
and `l[-0:]` (i.e. index `0`) is the whole list. -/
def pySliceFrom (i : Int) (l : List α) : List α :=
  if 0 ≤ i then l.drop i.toNat
  else l.drop ((l.length + i).toNat)

/-- `ConversationManager._apply_sliding_window` (cli.py lines 588-599):
if over capacity, keep the first message when its role is `system` plus the
Python slice `messages[-(max_messages - 1):]`, else `messages[-max_messages:]`. -/
def apply_sliding_window (max_messages : Nat) (messages : List Message) : List Message :=
  if messages.length ≤ max_messages then messages
  else
    match messages with
    | [] => []
    | m0 :: _ =>
      if m0.role == "system" then
        m0 :: pySliceFrom (-((max_messages : Int) - 1)) messages
      else
        pySliceFrom (-(max_messages : Int)) messages

/-- `ConversationManager.add_message` (cli.py lines 583-586): append, then
apply the sliding window. -/
def add_message (max_messages : Nat) (messages : List Message)
    (role content : String) : List Message :=
  apply_sliding_window max_messages (messages ++ [{ role := role, content := content }])

/-- Run a sequence of `add_message` calls from a starting buffer. -/
def run_adds (max_messages : Nat) (start : List Message)
    (adds : List (String × String)) : List Message :=
  adds.foldl (fun msgs rc => add_message max_messages msgs rc.1 rc.2) start

/-- `PRICING_TABLE` (cli.py lines 27-31), prices per million tokens as exact
rationals. -/
def PRICING_TABLE : List (String × ℚ × ℚ) :=
  [("anthropic/claude-haiku-4.5", (1, 5)),
   ("openai/gpt-5-mini", (1/4, 2)),
   ("google/gemini-2.5-flash", (3/10, 5/2))]

/-- State of `CostTracker` (cli.py lines 533-545). -/
structure CostTracker where
  model : String
  total_input_tokens : Nat
  total_output_tokens : Nat
deriving DecidableEq, Repr

/-- `self.pricing = PRICING_TABLE.get(model)` set in `CostTracker.__init__`. -/
def CostTracker.pricing (t : CostTracker) : Option (ℚ × ℚ) :=
  (PRICING_TABLE.find? (fun e => e.1 == t.model)).map (·.2)

/-- `CostTracker.add_usage`. -/
def CostTracker.add_usage (t : CostTracker) (input_tokens output_tokens : Nat) : CostTracker :=
  { t with
    total_input_tokens := t.total_input_tokens + input_tokens
    total_output_tokens := t.total_output_tokens + output_tokens }

/-- Result dictionary of `CostTracker.get_cost`. -/
structure CostInfo where
  input_tokens : Nat
  output_tokens : Nat
  input_cost : ℚ
  output_cost : ℚ
  total_cost : ℚ
deriving DecidableEq, Repr

/-- `CostTracker.get_cost` (cli.py lines 547-562). -/
def CostTracker.get_cost (t : CostTracker) : Option CostInfo :=
  match t.pricing with
  | none => none
  | some p =>
    let input_cost : ℚ := (t.total_input_tokens : ℚ) / 1000000 * p.1
    let output_cost : ℚ := (t.total_output_tokens : ℚ) / 1000000 * p.2
    some
      { input_tokens := t.total_input_tokens
        output_tokens := t.total_output_tokens
        input_cost := input_cost
        output_cost := output_cost
        total_cost := input_cost + output_cost }

/-- The `last_usage` record built in `chat_stream` (cli.py lines 681-685);
field values are whatever JSON values the event carried (default `0`). -/
structure UsageRec where
  prompt_tokens : Json
  completion_tokens : Json
  total_tokens : Json
deriving DecidableEq, Repr

/-- Usage extraction per event (cli.py lines 679-685): `usage = chunk.get('usage')`
was already read; if truthy, rebuild `last_usage` from its fields, else keep
the previous value. Raises `AttributeError` when `usage` is truthy but not a
dict. -/
def extractUsage (usageJ : Json) (u : Option UsageRec) : Except PyErr (Option UsageRec) :=
  if jsonTruthy usageJ then
    match pyGetD usageJ "prompt_tokens" (.num 0) with
    | .error e => .error e
    | .ok pt =>
      match pyGetD usageJ "completion_tokens" (.num 0) with
      | .error e => .error e
      | .ok ct =>
        match pyGetD usageJ "total_tokens" (.num 0) with
        | .error e => .error e
        | .ok tt => .ok (some ⟨pt, ct, tt⟩)
  else .ok u

/-- The tail of the per-event processing (cli.py lines 687-691):
`chunk.get('choices', [{}])[0].get('delta', {}).get('content', '')`, yielding
the content when truthy. -/
def processChoices (chunk : Json) (u' : Option UsageRec) :
    Except PyErr (Option UsageRec × Option Json) :=
  match pyGetD chunk "choices" (.arr [.obj []]) with
  | .error e => .error e
  | .ok choices =>
    match pyIndex choices 0 with
    | .error e => .error e
    | .ok c0 =>
      match pyGetD c0 "delta" (.obj []) with
      | .error e => .error e
      | .ok delta =>
        match pyGetD delta "content" (.str "") with
        | .error e => .error e
        | .ok content => .ok (u', if jsonTruthy content then some content else none)

/-- Processing of one decoded event (cli.py lines 676-691): read `usage`,
update `last_usage`, then read the delta content. Only `json.JSONDecodeError`
is caught by the code, so any `PyErr` here escapes `chat_stream`. -/
def processChunk (chunk : Json) (u : Option UsageRec) :
    Except PyErr (Option UsageRec × Option Json) :=
  match pyGetD chunk "usage" .null with
  | .error e => .error e
  | .ok usageJ =>
    match extractUsage usageJ u with
    | .error e => .error e
    | .ok u' => processChoices chunk u'

/-- The line loop of `OpenRouterClient.chat_stream` (cli.py lines 660-694).
`decode` stands for `json.loads` (`none` = `json.JSONDecodeError`); `intr i`
is the value of `self.interrupted` observed at the top of iteration `i` (it is
set from another thread by `interrupt()`); the result collects the yielded
fragments and the final `last_usage`. -/
def chat_stream_loop (decode : String → Option Json) (intr : Nat → Bool) :
    List String → Nat → Option UsageRec → Except PyErr (List Json × Option UsageRec)
  | [], _, u => .ok ([], u)
  | line :: rest, i, u =>
    if intr i then .ok ([], u)
    else if line = "" then chat_stream_loop decode intr rest (i + 1) u
    else if pyStartsWith line "data: " then
      let data := pyDrop line 6
      if data = "[DONE]" then .ok ([], u)
      else
        match decode data with
        | none => chat_stream_loop decode intr rest (i + 1) u
        | some chunk =>
          match processChunk chunk u with
          | .error e => .error e
          | .ok (u', frag) =>
            match chat_stream_loop decode intr rest (i + 1) u' with
            | .error e => .error e
            | .ok (frags, uF) => .ok (frag.toList ++ frags, uF)
    else chat_stream_loop decode intr rest (i + 1) u

/-- `chat_stream` on an already-open stream of event lines; `last_usage` is
reset to `None` at the start of each request (cli.py line 625). -/
def chat_stream (decode : String → Option Json) (intr : Nat → Bool)
    (lines : List String) : Except PyErr (List Json × Option UsageRec) :=
  chat_stream_loop decode intr lines 0 none

/-- An interrupt flag that is never set. -/
def noInterrupt : Nat → Bool := fun _ => false

/-- Event lines before the first `data: [DONE]` terminator. -/
def linesBeforeDone (lines : List String) : List String :=
  lines.takeWhile (fun line => line ≠ "data: [DONE]")

/-- The decoded JSON payloads of the `data: `-prefixed lines before the
terminator (blank and non-`data: ` lines carry no payload). -/
def decodedChunks (decode : String → Option Json) (lines : List String) : List Json :=
  (linesBeforeDone lines).filterMap fun line =>
    if pyStartsWith line "data: " then decode (pyDrop line 6) else none

/-- Spec-side reading of one event: the `choices[0].delta.content` value when
it is present and non-empty (truthy), read structurally with no defaults. -/
def specDeltaContent (chunk : Json) : Option Json :=
  match chunk with
  | .obj fs =>
    match dictGet? fs "choices" with
    | some (.arr (c0 :: _)) =>
      match c0 with
      | .obj c0fs =>
        match dictGet? c0fs "delta" with
        | some (.obj dfs) =>
          match dictGet? dfs "content" with
          | some c => if jsonTruthy c then some c else none
          | none => none
        | _ => none
      | _ => none
    | _ => none
  | _ => none

/-- Spec-side fragment sequence of a stream: the present-and-non-empty
contents of the decoded payloads before the terminator, in order. -/
def specFragments (decode : String → Option Json) (lines : List String) : List Json :=
  (decodedChunks decode lines).filterMap specDeltaContent

/-- A decoded event is benign when processing it raises no exception. -/
def chunkOk (chunk : Json) : Bool :=
  (processChunk chunk none).toBool

/-- `LLAMA_GUARD_CATEGORIES` (cli.py lines 34-49). -/
def LLAMA_GUARD_CATEGORIES : List (String × String) :=
  [("S1", "Violent Crimes"),
   ("S2", "Non-Violent Crimes"),
   ("S3", "Sex-Related Crimes"),
   ("S4", "Child Sexual Exploitation"),
   ("S5", "Defamation"),
   ("S6", "Specialized Advice"),
   ("S7", "Privacy Violations"),
   ("S8", "Intellectual Property Violations"),
   ("S9", "Indiscriminate Weapons"),
   ("S10", "Hate Speech"),
   ("S11", "Suicide & Self-Harm"),
   ("S12", "Sexual Content"),
   ("S13", "Elections"),
   ("S14", "Code Interpreter Abuse")]

/-- `re.search(r'S(\d+)', reason)` (cli.py line 752): the first `S` followed
by at least one digit, taking the maximal digit run. -/
def findSCode : List Char → Option String
  | [] => none
  | c :: rest =>
    if c = 'S' ∧ (rest.headD 'x').isDigit then
      some (String.mk ('S' :: rest.takeWhile Char.isDigit))
    else findSCode rest

/-- `re.sub(r'^\s*unsafe\s*\n?\s*', '', reason, flags=re.IGNORECASE)`
(cli.py lines 763 and 771): when the text starts with optional whitespace then
`unsafe` (case-insensitively), remove that and all whitespace following it;
otherwise leave the text unchanged. -/
def stripLeadingUnsafe (l : List Char) : List Char :=
  let afterWs := l.dropWhile pyIsSpace
  if (afterWs.take 6).map Char.toLower = "unsafe".toList then
    (afterWs.drop 6).dropWhile pyIsSpace
  else l

/-- Whether `pat` occurs as a contiguous substring of `s`. -/
def occursIn (pat : List Char) : List Char → Bool
  | [] => pat.isEmpty
  | c :: rest => pat.isPrefixOf (c :: rest) || occursIn pat rest

/-- The `cleaned` value of `_format_guardrail_reason`: the text with a
leading `unsafe` removed, then stripped. -/
def cleanedUnsafe (reason : String) : String :=
  pyStrip (String.mk (stripLeadingUnsafe reason.toList))

/-- `GuardrailChecker._format_guardrail_reason` (cli.py lines 739-772). -/
def format_guardrail_reason (reason : String) : String :=
  if reason = "" then "Content blocked by safety guardrail"
  else
    match findSCode reason.toList with
    | some s_code =>
      let category_name :=
        ((LLAMA_GUARD_CATEGORIES.find? (fun e => e.1 == s_code)).map (·.2)).getD
          "Unknown Category"
      if occursIn (pyLower category_name).toList (pyLower reason).toList then
        cleanedUnsafe reason
      else
        category_name ++ " (" ++ s_code ++ ")"
    | none =>
      if cleanedUnsafe reason ≠ "" then cleanedUnsafe reason
      else "Content blocked by safety guardrail"

/-- The verdict computed by `GuardrailChecker._check_external` from a
successful (HTTP 200) classifier response `content` (cli.py lines 810-821). -/
def check_external_verdict (content : String) : Bool × String :=
  if pyStartsWith (pyLower (pyStrip content)) "safe" then (true, "")
  else
    let raw_reason :=
      if content ≠ "" then pyStrip content else "Content blocked by safety guardrail"
    (false, format_guardrail_reason raw_reason)

mutual

/-- Python `repr` of a decoded JSON value (single-quoted strings; escape
corner cases inside strings are not exercised by this code). -/
def pyRepr : Json → String
  | .null => "None"
  | .bool true => "True"
  | .bool false => "False"
  | .num n => toString n
  | .str s => "'" ++ s ++ "'"
  | .arr xs => "[" ++ pyReprElems xs ++ "]"
  | .obj fs => "\x7b" ++ pyReprFields fs ++ "\x7d"

/-- Comma-separated `repr` of list elements. -/
def pyReprElems : List Json → String
  | [] => ""
  | [x] => pyRepr x
  | x :: xs => pyRepr x ++ ", " ++ pyReprElems xs

/-- Comma-separated `repr` of dict entries. -/
def pyReprFields : List (String × Json) → String
  | [] => ""
  | [(k, v)] => "'" ++ k ++ "': " ++ pyRepr v
  | (k, v) :: fs => "'" ++ k ++ "': " ++ pyRepr v ++ ", " ++ pyReprFields fs

end

/-- Python `str` of a decoded JSON value, as interpolated by an f-string. -/
def pyStr : Json → String
  | .str s => s
  | j => pyRepr j

/-- The literal token `"intent"` (with quotes) from the intent-JSON regex. -/
def intentTok : List Char := "\"intent\"".toList

/-- The literal token `"appropriate"` (with quotes) from the intent-JSON regex. -/
def apprTok : List Char := "\"appropriate\"".toList

/-- The suffix of `s` after the first occurrence of `pat`, when `pat` occurs. -/
def splitAfterFirst (pat : List Char) : List Char → Option (List Char)
  | [] => if pat.isEmpty then some [] else none
  | c :: rest =>
    if pat.isPrefixOf (c :: rest) then some ((c :: rest).drop pat.length)
    else splitAfterFirst pat rest

/-- Whether `p` occurs in `s` and `q` occurs at or after the end of that
first occurrence of `p` (the backtracking semantics of `p[^\x7d]*q`). -/
def orderedPair (p q s : List Char) : Bool :=
  match splitAfterFirst p s with
  | none => false
  | some rest => (splitAfterFirst q rest).isSome

/-- `re.search(r'\{[^}]*"intent"[^}]*"appropriate"[^}]*\}', response, re.DOTALL)`
(cli.py lines 851-852).  Since `[^\x7d]` excludes the closing brace, a match
starting at an opening brace necessarily ends at the first closing brace after
it; the leftmost such brace whose interior contains `"intent"` and then
`"appropriate"` wins.  Returns the matched span as
`(match.start(), match.end())` in character indices. -/
def findIntentMatch : List Char → Nat → Option (Nat × Nat)
  | [], _ => none
  | c :: rest, i =>
    if c = '\x7b' ∧ '\x7d' ∈ rest then
      let interior := rest.takeWhile (fun d => d != '\x7d')
      if orderedPair intentTok apprTok interior then some (i, i + interior.length + 2)
      else findIntentMatch rest (i + 1)
    else findIntentMatch rest (i + 1)

/-- The matched span `response[s:e]` as a string. -/
def intentSpan (response : String) (s e : Nat) : String :=
  String.mk ((response.toList.drop s).take (e - s))

/-- Declarative reading of a match of the intent regex at character span
`[s, e)`: an opening brace, a brace-free interior that contains the quoted
token `"intent"` and, at or after its end, the quoted token `"appropriate"`,
and the first closing brace after the opener. -/
def spanIsIntentMatch (l : List Char) (s e : Nat) : Prop :=
  ∃ before interior after,
    l = before ++ '\x7b' :: (interior ++ '\x7d' :: after) ∧
    before.length = s ∧
    s + interior.length + 2 = e ∧
    '\x7d' ∉ interior ∧
    ∃ a b c, interior = a ++ intentTok ++ b ++ apprTok ++ c

/-- `GuardrailChecker.parse_intent_response` (cli.py lines 842-879).
Returns `(allowed, intent_summary, actual_response)`; the summary is kept as
the raw JSON value, since the Python code returns `intent_data.get('intent')`
unconverted except in the blocked-with-reason branch.  Raises
`AttributeError` when `decode` yields a non-dict for the matched span (never
the case for `json.loads` on a brace-delimited span). -/
def parse_intent_response (decode : String → Option Json) (response : String) :
    Except PyErr (Bool × Json × String) :=
  match findIntentMatch response.toList 0 with
  | none => .ok (true, .str "Intent analysis not found", response)
  | some (s, e) =>
    match decode (intentSpan response s e) with
    | none => .ok (true, .str "Intent parsing failed", response)
    | some intent_data =>
      match intent_data with
      | .obj fs =>
        let intent_summary := (dictGet? fs "intent").getD (.str "Unknown intent")
        let appropriate := (dictGet? fs "appropriate").getD (.bool true)
        let reason := (dictGet? fs "reason").getD (.str "")
        let actual_response := pyStrip (String.mk (response.toList.drop e))
        if jsonTruthy appropriate then .ok (true, intent_summary, actual_response)
        else
          let block_reason : Json :=
            if jsonTruthy reason then
              .str (pyStr intent_summary ++ ". Reason: " ++ pyStr reason)
            else intent_summary
          .ok (false, block_reason, "")
      | _ => .error .attributeError

/-- The blocked-branch reason of `parse_intent_response`: the f-string
`"<intent>. Reason: <reason>"` when the reason is truthy, else the raw
intent value. -/
def intentBlockReason (fs : List (String × Json)) : Json :=
  if jsonTruthy ((dictGet? fs "reason").getD (.str "")) then
    .str (pyStr ((dictGet? fs "intent").getD (.str "Unknown intent")) ++ ". Reason: " ++
      pyStr ((dictGet? fs "reason").getD (.str "")))
  else (dictGet? fs "intent").getD (.str "Unknown intent")

/-- Decidable equality of `Except` results, for evaluating the embedding on
concrete streams. -/
instance {ε α : Type} [DecidableEq ε] [DecidableEq α] : DecidableEq (Except ε α) := fun a b =>
  match a, b with
  | .ok x, .ok y => decidable_of_iff (x = y) (by simp)
  | .error e, .error f => decidable_of_iff (e = f) (by simp)
  | .ok _, .error _ => isFalse (by simp)
  | .error _, .ok _ => isFalse (by simp)

/-- Outcome of one `TerminalChat._process_message` turn, projected onto the
conversation state: the final history, the snapshot sent to the streaming API
(`none` when no request was issued), and whether an exception was caught and
reported. -/
structure TurnOutcome where
  conv : List Message
  requested : Option (List Message)
  failed : Bool
deriving DecidableEq, Repr

/-- `TerminalChat._process_message` (cli.py lines 1035-1141), with its
collaborators passed as parameters: `inputVerdict` is the result of
`check_input`; `streamResult` is the accumulated streamed response or the
exception the stream raised; `interrupted` is whether ESC was observed;
`useIntent` selects the intent-guardrail branch; `outputVerdict` is
`check_output`.  Rendering and cost display are I/O and not modelled. -/
def process_message (N : Nat) (conv0 : List Message) (userMsg : String)
    (inputVerdict : Bool × String)
    (streamResult : Except PyErr String)
    (interrupted : Bool)
    (useIntent : Bool)
    (decode : String → Option Json)
    (outputVerdict : String → Bool × String) : TurnOutcome :=
  if !inputVerdict.1 then ⟨conv0, none, false⟩
  else
    let conv1 := add_message N conv0 "user" userMsg
    match streamResult with
    | .error _ => ⟨conv1, some conv1, true⟩
    | .ok resp =>
      if interrupted then ⟨conv1, some conv1, false⟩
      else if resp = "" then ⟨conv1, some conv1, false⟩
      else if useIntent then
        match parse_intent_response decode resp with
        | .error _ => ⟨conv1, some conv1, true⟩
        | .ok (allowed, _info, actual) =>
          if allowed then ⟨add_message N conv1 "assistant" actual, some conv1, false⟩
          else ⟨conv1, some conv1, false⟩
      else
        if (outputVerdict resp).1 then
          ⟨add_message N conv1 "assistant" resp, some conv1, false⟩
        else ⟨conv1, some conv1, false⟩

/-- JSON value of a one-choice content delta event. -/
def contentChunk (s : String) : Json :=
  .obj [("choices", .arr [.obj [("delta", .obj [("content", .str s)])]])]

/-- Finite decode table for the concrete payloads used in the examples: each
entry is the verbatim payload text and its `json.loads` value. -/
def exampleDecodes : List (String × Json) :=
  [("\x7b\"choices\": [\x7b\"delta\": \x7b\"content\": \"Hello\"\x7d\x7d]\x7d",
    contentChunk "Hello"),
   ("\x7b\"choices\": [\x7b\"delta\": \x7b\"content\": \" World\"\x7d\x7d]\x7d",
    contentChunk " World"),
   ("\x7b\"choices\": [\x7b\"delta\": \x7b\"content\": \"A\"\x7d\x7d]\x7d",
    contentChunk "A"),
   ("\x7b\"choices\": [\x7b\"delta\": \x7b\"content\": \"B\"\x7d\x7d]\x7d",
    contentChunk "B"),
   ("\x7b\"choices\": []\x7d",
    .obj [("choices", .arr [])]),
   ("\x7b\"intent\":\"ask weather\",\"appropriate\":true,\"reason\":\"\"\x7d",
    .obj [("intent", .str "ask weather"), ("appropriate", .bool true),
          ("reason", .str "")]),
   ("\x7b\"intent\":\"harmful request\",\"appropriate\":false,\"reason\":\"violates policy\"\x7d",
    .obj [("intent", .str "harmful request"), ("appropriate", .bool false),
          ("reason", .str "violates policy")]),
   ("\x7b\"a\": \"intent\", \"b\": \"appropriate\"\x7d",
    .obj [("a", .str "intent"), ("b", .str "appropriate")])]

/-- `json.loads` restricted to the payloads of the examples; every other
string (in particular the malformed `\x7bnot json` payload) fails to decode. -/
def decodeEx (s : String) : Option Json :=
  (exampleDecodes.find? (fun e => e.1 == s)).map (·.2)

/-- Example stream for C2: two content events with a blank line and a
non-`data: ` line interleaved, a terminator, and a buffered event after the
terminator that is never reached. -/
def exStreamLines : List String :=
  ["data: \x7b\"choices\": [\x7b\"delta\": \x7b\"content\": \"Hello\"\x7d\x7d]\x7d",
   "",
   ": keep-alive",
   "data: \x7b\"choices\": [\x7b\"delta\": \x7b\"content\": \" World\"\x7d\x7d]\x7d",
   "data: [DONE]",
   "data: \x7b\"choices\": []\x7d"]

/-- Example stream for C4: a valid event, a malformed payload, another valid
event, and the terminator. -/
def exStreamLinesAB : List String :=
  ["data: \x7b\"choices\": [\x7b\"delta\": \x7b\"content\": \"A\"\x7d\x7d]\x7d",
   "data: \x7bnot json",
   "data: \x7b\"choices\": [\x7b\"delta\": \x7b\"content\": \"B\"\x7d\x7d]\x7d",
   "data: [DONE]"]

/-- Example stream for C3: three content events and the terminator; the
interrupt flag becomes true at line index 2. -/
def exStreamLinesIntr : List String :=
  ["data: \x7b\"choices\": [\x7b\"delta\": \x7b\"content\": \"Hello\"\x7d\x7d]\x7d",
   "data: \x7b\"choices\": [\x7b\"delta\": \x7b\"content\": \" World\"\x7d\x7d]\x7d",
   "data: \x7b\"choices\": [\x7b\"delta\": \x7b\"content\": \"A\"\x7d\x7d]\x7d",
   "data: [DONE]"]

/-! ### Supporting lemmas -/

theorem dictGet?_nil (key : String) : dictGet? [] key = none := rfl

theorem except_toBool_ok {ε α : Type} (a : α) : (Except.ok a : Except ε α).toBool = true := rfl

theorem except_toBool_error {ε α : Type} (e : ε) :
    (Except.error e : Except ε α).toBool = false := rfl

/-- The usage step either raises `AttributeError` regardless of the previous
`last_usage`, or succeeds for every previous `last_usage`. -/
theorem extractUsage_master (usageJ : Json) (u : Option UsageRec) :
    (extractUsage usageJ u = .error .attributeError ∧
      extractUsage usageJ none = .error .attributeError) ∨
    (∃ u', extractUsage usageJ u = .ok u' ∧ ∃ u₀, extractUsage usageJ none = .ok u₀) := by
  by_cases hT : jsonTruthy usageJ = true
  · cases usageJ with
    | obj ufs =>
        refine Or.inr ⟨some ⟨(dictGet? ufs "prompt_tokens").getD (.num 0),
            (dictGet? ufs "completion_tokens").getD (.num 0),
            (dictGet? ufs "total_tokens").getD (.num 0)⟩, ?_,
          some ⟨(dictGet? ufs "prompt_tokens").getD (.num 0),
            (dictGet? ufs "completion_tokens").getD (.num 0),
            (dictGet? ufs "total_tokens").getD (.num 0)⟩, ?_⟩ <;>
          simp [extractUsage, hT, pyGetD]
    | null => exact Or.inl ⟨by simp [extractUsage, hT, pyGetD], by simp [extractUsage, hT, pyGetD]⟩
    | bool b => exact Or.inl ⟨by simp [extractUsage, hT, pyGetD], by simp [extractUsage, hT, pyGetD]⟩
    | num n => exact Or.inl ⟨by simp [extractUsage, hT, pyGetD], by simp [extractUsage, hT, pyGetD]⟩
    | str s => exact Or.inl ⟨by simp [extractUsage, hT, pyGetD], by simp [extractUsage, hT, pyGetD]⟩
    | arr xs => exact Or.inl ⟨by simp [extractUsage, hT, pyGetD], by simp [extractUsage, hT, pyGetD]⟩
  · exact Or.inr ⟨u, by simp [extractUsage, hT], none, by simp [extractUsage, hT]⟩

/-- The content-extraction chain either raises the same exception for every
`last_usage` value, or returns the spec-side content for every `last_usage`
value. -/
theorem processChoices_master (chunk : Json) :
    (∃ e, ∀ v, processChoices chunk v = .error e) ∨
    (∀ v, processChoices chunk v = .ok (v, specDeltaContent chunk)) := by
  cases chunk with
  | obj fs =>
    rcases hC : dictGet? fs "choices" with _ | j
    · exact Or.inr fun v => by
        simp [processChoices, pyGetD, pyIndex, dictGet?_nil, hC, specDeltaContent, jsonTruthy]
    · cases j with
      | arr xs =>
        cases xs with
        | nil => exact Or.inl ⟨.indexError, fun v => by
            simp [processChoices, pyGetD, pyIndex, hC]⟩
        | cons c0 cs =>
          cases c0 with
          | obj c0fs =>
            rcases hD : dictGet? c0fs "delta" with _ | d
            · exact Or.inr fun v => by
                simp [processChoices, pyGetD, pyIndex, dictGet?_nil, hC, hD, specDeltaContent, jsonTruthy]
            · cases d with
              | obj dfs =>
                rcases hE : dictGet? dfs "content" with _ | c
                · exact Or.inr fun v => by
                    simp [processChoices, pyGetD, pyIndex, dictGet?_nil, hC, hD, hE, specDeltaContent,
                      jsonTruthy]
                · exact Or.inr fun v => by
                    simp [processChoices, pyGetD, pyIndex, hC, hD, hE, specDeltaContent]
              | null => exact Or.inl ⟨.attributeError, fun v => by
                  simp [processChoices, pyGetD, pyIndex, hC, hD]⟩
              | bool b => exact Or.inl ⟨.attributeError, fun v => by
                  simp [processChoices, pyGetD, pyIndex, hC, hD]⟩
              | num n => exact Or.inl ⟨.attributeError, fun v => by
                  simp [processChoices, pyGetD, pyIndex, hC, hD]⟩
              | str s => exact Or.inl ⟨.attributeError, fun v => by
                  simp [processChoices, pyGetD, pyIndex, hC, hD]⟩
              | arr ys => exact Or.inl ⟨.attributeError, fun v => by
                  simp [processChoices, pyGetD, pyIndex, hC, hD]⟩
          | null => exact Or.inl ⟨.attributeError, fun v => by
              simp [processChoices, pyGetD, pyIndex, hC]⟩
          | bool b => exact Or.inl ⟨.attributeError, fun v => by
              simp [processChoices, pyGetD, pyIndex, hC]⟩
          | num n => exact Or.inl ⟨.attributeError, fun v => by
              simp [processChoices, pyGetD, pyIndex, hC]⟩
          | str s => exact Or.inl ⟨.attributeError, fun v => by
              simp [processChoices, pyGetD, pyIndex, hC]⟩
          | arr ys => exact Or.inl ⟨.attributeError, fun v => by
              simp [processChoices, pyGetD, pyIndex, hC]⟩
      | null => exact Or.inl ⟨.typeError, fun v => by simp [processChoices, pyGetD, pyIndex, hC]⟩
      | bool b => exact Or.inl ⟨.typeError, fun v => by simp [processChoices, pyGetD, pyIndex, hC]⟩
      | num n => exact Or.inl ⟨.typeError, fun v => by simp [processChoices, pyGetD, pyIndex, hC]⟩
      | str s => exact Or.inl ⟨.typeError, fun v => by simp [processChoices, pyGetD, pyIndex, hC]⟩
      | obj gs => exact Or.inl ⟨.typeError, fun v => by simp [processChoices, pyGetD, pyIndex, hC]⟩
  | null => exact Or.inl ⟨.attributeError, fun v => by simp [processChoices, pyGetD]⟩
  | bool b => exact Or.inl ⟨.attributeError, fun v => by simp [processChoices, pyGetD]⟩
  | num n => exact Or.inl ⟨.attributeError, fun v => by simp [processChoices, pyGetD]⟩
  | str s => exact Or.inl ⟨.attributeError, fun v => by simp [processChoices, pyGetD]⟩
  | arr xs => exact Or.inl ⟨.attributeError, fun v => by simp [processChoices, pyGetD]⟩

/-- A benign event processes to the spec-side content for every `last_usage`
value; a non-benign event raises for every `last_usage` value. -/
theorem processChunk_master (chunk : Json) (u : Option UsageRec) :
    (chunkOk chunk = false ∧ ∃ e, processChunk chunk u = .error e) ∨
    (chunkOk chunk = true ∧ ∃ u', processChunk chunk u = .ok (u', specDeltaContent chunk)) := by
  cases chunk with
  | obj fs =>
    have hu := extractUsage_master ((dictGet? fs "usage").getD .null) u
    rcases hu with ⟨he, he₀⟩ | ⟨u', hu', u₀, hu₀⟩
    · refine Or.inl ⟨?_, .attributeError, ?_⟩
      · simp [chunkOk, processChunk, pyGetD, except_toBool_ok, except_toBool_error, he₀]
      · simp [processChunk, pyGetD, he]
    · rcases processChoices_master (.obj fs) with ⟨e, hch⟩ | hch
      · refine Or.inl ⟨?_, e, ?_⟩
        · simp [chunkOk, processChunk, pyGetD, except_toBool_ok, except_toBool_error, hu₀, hch]
        · simp [processChunk, pyGetD, hu', hch]
      · refine Or.inr ⟨?_, u', ?_⟩
        · simp [chunkOk, processChunk, pyGetD, except_toBool_ok, except_toBool_error, hu₀, hch]
        · simp [processChunk, pyGetD, hu', hch]
  | null => exact Or.inl ⟨by simp [chunkOk, processChunk, pyGetD, except_toBool_ok, except_toBool_error], .attributeError,
      by simp [processChunk, pyGetD]⟩
  | bool b => exact Or.inl ⟨by simp [chunkOk, processChunk, pyGetD, except_toBool_ok, except_toBool_error], .attributeError,
      by simp [processChunk, pyGetD]⟩
  | num n => exact Or.inl ⟨by simp [chunkOk, processChunk, pyGetD, except_toBool_ok, except_toBool_error], .attributeError,
      by simp [processChunk, pyGetD]⟩
  | str s => exact Or.inl ⟨by simp [chunkOk, processChunk, pyGetD, except_toBool_ok, except_toBool_error], .attributeError,
      by simp [processChunk, pyGetD]⟩
  | arr xs => exact Or.inl ⟨by simp [chunkOk, processChunk, pyGetD, except_toBool_ok, except_toBool_error], .attributeError,
      by simp [processChunk, pyGetD]⟩

theorem string_ext_toList {s t : String} (h : s.toList = t.toList) : s = t := by
  cases s; cases t; exact congrArg String.mk (by simpa using h)

/-- A line that starts with `data: ` and whose payload is `[DONE]` is the
literal terminator line. -/
theorem data_done_line (line : String)
    (h1 : pyStartsWith line "data: " = true) (h2 : pyDrop line 6 = "[DONE]") :
    line = "data: [DONE]" := by
  rcases List.isPrefixOf_iff_prefix.mp h1 with ⟨t, ht⟩
  have h6 : line.toList.drop 6 = t := by
    rw [← ht]
    exact List.drop_left "data: ".toList t
  have ht' : t = "[DONE]".toList := by
    have := congrArg String.toList h2
    rw [pyDrop] at this
    rw [← h6]
    simpa using this
  refine string_ext_toList ?_
  rw [← ht, ht']
  decide

theorem decodedChunks_nil (decode : String → Option Json) :
    decodedChunks decode [] = [] := rfl

theorem decodedChunks_cons_done (decode : String → Option Json) (rest : List String) :
    decodedChunks decode ("data: [DONE]" :: rest) = [] := by
  simp [decodedChunks, linesBeforeDone]

theorem decodedChunks_cons_skip (decode : String → Option Json) (line : String)
    (rest : List String) (hne : line ≠ "data: [DONE]")
    (hsw : pyStartsWith line "data: " = false) :
    decodedChunks decode (line :: rest) = decodedChunks decode rest := by
  simp [decodedChunks, linesBeforeDone, hne, hsw]

theorem decodedChunks_cons_noparse (decode : String → Option Json) (line : String)
    (rest : List String) (hne : line ≠ "data: [DONE]")
    (hsw : pyStartsWith line "data: " = true) (hdec : decode (pyDrop line 6) = none) :
    decodedChunks decode (line :: rest) = decodedChunks decode rest := by
  simp [decodedChunks, linesBeforeDone, hne, hsw, hdec]

theorem decodedChunks_cons_chunk (decode : String → Option Json) (line : String)
    (rest : List String) (chunk : Json) (hne : line ≠ "data: [DONE]")
    (hsw : pyStartsWith line "data: " = true)
    (hdec : decode (pyDrop line 6) = some chunk) :
    decodedChunks decode (line :: rest) = chunk :: decodedChunks decode rest := by
  simp [decodedChunks, linesBeforeDone, hne, hsw, hdec]

theorem filterMap_cons_toList {α β : Type} (f : α → Option β) (a : α) (l : List α) :
    List.filterMap f (a :: l) = (f a).toList ++ List.filterMap f l := by
  cases h : f a <;> simp [List.filterMap_cons, h]

/-- The streaming loop on a stream of benign events: it succeeds and yields
exactly the spec-side fragment sequence, for any starting line index and any
pending usage record. -/
theorem chat_stream_loop_fragments (decode : String → Option Json) :
    ∀ (lines : List String) (i : Nat) (u : Option UsageRec),
      (decodedChunks decode lines).all chunkOk = true →
      ∃ u', chat_stream_loop decode noInterrupt lines i u =
        .ok (specFragments decode lines, u')
  | [], i, u, _ => ⟨u, by simp [chat_stream_loop, specFragments, decodedChunks, linesBeforeDone]⟩
  | line :: rest, i, u, hben => by
    by_cases h0 : line = ""
    · subst h0
      have hchunks : decodedChunks decode ("" :: rest) = decodedChunks decode rest :=
        decodedChunks_cons_skip decode "" rest (by decide) (by decide)
      rw [hchunks] at hben
      rcases chat_stream_loop_fragments decode rest (i + 1) u hben with ⟨u', hl⟩
      exact ⟨u', by simpa [chat_stream_loop, noInterrupt, specFragments, hchunks] using hl⟩
    · by_cases hsw : pyStartsWith line "data: " = true
      · by_cases hD : pyDrop line 6 = "[DONE]"
        · have hline := data_done_line line hsw hD
          subst hline
          refine ⟨u, ?_⟩
          simp [chat_stream_loop, noInterrupt, specFragments, decodedChunks_cons_done,
            hsw, hD, h0]
        · have hne : line ≠ "data: [DONE]" := by
            intro hc; subst hc; exact hD (by decide)
          cases hdec : decode (pyDrop line 6) with
          | none =>
            have hchunks := decodedChunks_cons_noparse decode line rest hne hsw hdec
            rw [hchunks] at hben
            rcases chat_stream_loop_fragments decode rest (i + 1) u hben with ⟨u', hl⟩
            refine ⟨u', ?_⟩
            simp only [chat_stream_loop, noInterrupt, h0, hsw, hD, hdec, if_false, if_true,
              Bool.false_eq_true, ite_false, ite_true]
            simpa [specFragments, hchunks] using hl
          | some chunk =>
            have hchunks := decodedChunks_cons_chunk decode line rest chunk hne hsw hdec
            rw [hchunks, List.all_cons, Bool.and_eq_true] at hben
            rcases processChunk_master chunk u with ⟨hcf, _⟩ | ⟨_, u', hp⟩
            · rw [hben.1] at hcf; cases hcf
            · rcases chat_stream_loop_fragments decode rest (i + 1) u' hben.2 with ⟨u'', hl⟩
              refine ⟨u'', ?_⟩
              simp only [chat_stream_loop, noInterrupt, h0, hsw, hD, hdec, if_false, if_true,
                Bool.false_eq_true, ite_false, ite_true]
              rw [hp]
              simp [hl, specFragments, hchunks, filterMap_cons_toList]
      · have hne : line ≠ "data: [DONE]" := by
          intro hc; subst hc; exact absurd (by decide : pyStartsWith "data: [DONE]" "data: " = true) (by simp [hsw])
        have hchunks := decodedChunks_cons_skip decode line rest hne
          (by simpa using hsw)
        rw [hchunks] at hben
        rcases chat_stream_loop_fragments decode rest (i + 1) u hben with ⟨u', hl⟩
        refine ⟨u', ?_⟩
        simp only [chat_stream_loop, noInterrupt, h0, hsw, if_false, Bool.false_eq_true,
          ite_false, ite_true]
        simpa [specFragments, hchunks] using hl

/-- With the interrupt flag never set, the streaming loop does not depend on
the line index. -/
theorem chat_stream_loop_index (decode : String → Option Json) :
    ∀ (lines : List String) (i j : Nat) (u : Option UsageRec),
      chat_stream_loop decode noInterrupt lines i u =
        chat_stream_loop decode noInterrupt lines j u
  | [], _, _, _ => rfl
  | line :: rest, i, j, u => by
    by_cases h0 : line = ""
    · simpa [chat_stream_loop, noInterrupt, h0] using
        chat_stream_loop_index decode rest (i + 1) (j + 1) u
    · by_cases hsw : pyStartsWith line "data: " = true
      · by_cases hD : pyDrop line 6 = "[DONE]"
        · simp [chat_stream_loop, noInterrupt, h0, hsw, hD]
        · cases hdec : decode (pyDrop line 6) with
          | none =>
            simpa [chat_stream_loop, noInterrupt, h0, hsw, hD, hdec] using
              chat_stream_loop_index decode rest (i + 1) (j + 1) u
          | some chunk =>
            cases hp : processChunk chunk u with
            | error e => simp [chat_stream_loop, noInterrupt, h0, hsw, hD, hdec, hp]
            | ok pr =>
              have ih := chat_stream_loop_index decode rest (i + 1) (j + 1) pr.1
              simp [chat_stream_loop, noInterrupt, h0, hsw, hD, hdec, hp, ih]
      · simpa [chat_stream_loop, noInterrupt, h0, hsw] using
          chat_stream_loop_index decode rest (i + 1) (j + 1) u

/-- An event line with a malformed payload is skipped by the loop: processing
continues with the remaining lines, nothing is emitted for it. -/
theorem chat_stream_loop_skip_bad (decode : String → Option Json) (bad : String)
    (hsw : pyStartsWith bad "data: " = true) (hnd : pyDrop bad 6 ≠ "[DONE]")
    (hdec : decode (pyDrop bad 6) = none) (post : List String) (i : Nat)
    (u : Option UsageRec) :
    chat_stream_loop decode noInterrupt (bad :: post) i u =
      chat_stream_loop decode noInterrupt post (i + 1) u := by
  have hne : bad ≠ "" := by
    intro hc
    rw [hc] at hsw
    exact absurd hsw (by decide)
  simp [chat_stream_loop, noInterrupt, hne, hsw, hnd, hdec]

/-- When some point `k` onward the interrupt flag reads true, the streaming
loop behaves exactly as if the stream ended before the flag: lines from the
flag point on are neither consumed nor emitted. -/
theorem chat_stream_loop_take (decode : String → Option Json) (intr : Nat → Bool)
    (k : Nat) (hk : ∀ j, k ≤ j → intr j = true) :
    ∀ (lines : List String) (i : Nat) (u : Option UsageRec),
      chat_stream_loop decode intr lines i u =
        chat_stream_loop decode intr (lines.take (k - i)) i u
  | [], _, _ => by simp
  | line :: rest, i, u => by
    by_cases hi : intr i = true
    · cases hki : k - i with
      | zero => simp [chat_stream_loop, hi]
      | succ m => simp [chat_stream_loop, hi]
    · have hik : i < k := by
        by_contra hle
        exact hi (hk i (by omega))
      have hm : k - i = (k - (i + 1)) + 1 := by omega
      rw [hm, List.take_succ_cons]
      by_cases h0 : line = ""
      · simpa [chat_stream_loop, hi, h0] using
          chat_stream_loop_take decode intr k hk rest (i + 1) u
      · by_cases hsw : pyStartsWith line "data: " = true
        · by_cases hD : pyDrop line 6 = "[DONE]"
          · simp [chat_stream_loop, hi, h0, hsw, hD]
          · cases hdec : decode (pyDrop line 6) with
            | none =>
              simpa [chat_stream_loop, hi, h0, hsw, hD, hdec] using
                chat_stream_loop_take decode intr k hk rest (i + 1) u
            | some chunk =>
              cases hp : processChunk chunk u with
              | error e => simp [chat_stream_loop, hi, h0, hsw, hD, hdec, hp]
              | ok pr =>
                have ih := chat_stream_loop_take decode intr k hk rest (i + 1) pr.1
                simp [chat_stream_loop, hi, h0, hsw, hD, hdec, hp, ih]
        · simpa [chat_stream_loop, hi, h0, hsw] using
            chat_stream_loop_take decode intr k hk rest (i + 1) u

/-- The loop ignores a malformed event wherever it occurs in the stream. -/
theorem chat_stream_loop_skips (decode : String → Option Json) (bad : String)
    (hsw : pyStartsWith bad "data: " = true) (hnd : pyDrop bad 6 ≠ "[DONE]")
    (hdec : decode (pyDrop bad 6) = none) :
    ∀ (pre post : List String) (i : Nat) (u : Option UsageRec),
      chat_stream_loop decode noInterrupt (pre ++ bad :: post) i u =
        chat_stream_loop decode noInterrupt (pre ++ post) i u
  | [], post, i, u => by
    rw [List.nil_append, List.nil_append,
      chat_stream_loop_skip_bad decode bad hsw hnd hdec post i u]
    exact chat_stream_loop_index decode post (i + 1) i u
  | line :: pre', post, i, u => by
    rw [List.cons_append, List.cons_append]
    by_cases h0 : line = ""
    · simpa [chat_stream_loop, noInterrupt, h0] using
        chat_stream_loop_skips decode bad hsw hnd hdec pre' post (i + 1) u
    · by_cases hsw' : pyStartsWith line "data: " = true
      · by_cases hD : pyDrop line 6 = "[DONE]"
        · simp [chat_stream_loop, noInterrupt, h0, hsw', hD]
        · cases hdec' : decode (pyDrop line 6) with
          | none =>
            simpa [chat_stream_loop, noInterrupt, h0, hsw', hD, hdec'] using
              chat_stream_loop_skips decode bad hsw hnd hdec pre' post (i + 1) u
          | some chunk =>
            cases hp : processChunk chunk u with
            | error e => simp [chat_stream_loop, noInterrupt, h0, hsw', hD, hdec', hp]
            | ok pr =>
              have ih := chat_stream_loop_skips decode bad hsw hnd hdec pre' post (i + 1) pr.1
              simp [chat_stream_loop, noInterrupt, h0, hsw', hD, hdec', hp, ih]
      · simpa [chat_stream_loop, noInterrupt, h0, hsw'] using
          chat_stream_loop_skips decode bad hsw hnd hdec pre' post (i + 1) u

/-- A successful `splitAfterFirst` exhibits an occurrence of the pattern. -/
theorem splitAfterFirst_eq (pat : List Char) :
    ∀ (s t : List Char), splitAfterFirst pat s = some t → ∃ a, s = a ++ pat ++ t
  | [], t, h => by
    by_cases hp : pat.isEmpty
    · have hpat : pat = [] := by simpa [List.isEmpty_iff] using hp
      have ht : t = [] := by
        have h' := h
        simp [splitAfterFirst, hp] at h'
        exact h'
      exact ⟨[], by simp [hpat, ht]⟩
    · simp [splitAfterFirst, hp] at h
  | c :: rest, t, h => by
    by_cases hp : pat.isPrefixOf (c :: rest) = true
    · rcases List.isPrefixOf_iff_prefix.mp hp with ⟨t', ht'⟩
      have hT : t = (c :: rest).drop pat.length := by
        have h' := h
        simp [splitAfterFirst, hp] at h'
        exact h'.symm
      refine ⟨[], ?_⟩
      rw [List.nil_append, ← ht', hT, ← ht', List.drop_left]
    · have h' : splitAfterFirst pat rest = some t := by
        simpa [splitAfterFirst, hp] using h
      rcases splitAfterFirst_eq pat rest t h' with ⟨a, ha⟩
      exact ⟨c :: a, by simp [ha]⟩

/-- Any occurrence of the pattern makes `splitAfterFirst` succeed, with a
suffix extending the occurrence's remainder. -/
theorem splitAfterFirst_suffix (pat : List Char) :
    ∀ (a r : List Char), ∃ t u,
      splitAfterFirst pat (a ++ (pat ++ r)) = some t ∧ t = u ++ r
  | [], r => by
    cases hpat : pat with
    | nil =>
      cases r with
      | nil => exact ⟨[], [], by simp [splitAfterFirst], by simp⟩
      | cons c rest =>
        refine ⟨c :: rest, [], ?_, by simp⟩
        simp [splitAfterFirst, List.isPrefixOf]
    | cons p0 ps =>
      refine ⟨r, [], ?_, by simp⟩
      have hpre : pat.isPrefixOf (pat ++ r) = true :=
        List.isPrefixOf_iff_prefix.mpr (List.prefix_append pat r)
      rw [← hpat]
      rw [List.nil_append, show pat ++ r = p0 :: (ps ++ r) from by rw [hpat]; rfl]
      rw [splitAfterFirst]
      rw [show p0 :: (ps ++ r) = pat ++ r from by rw [hpat]; rfl]
      rw [if_pos hpre, List.drop_left]
  | c :: a', r => by
    by_cases hp : pat.isPrefixOf (c :: (a' ++ (pat ++ r))) = true
    · refine ⟨(c :: (a' ++ (pat ++ r))).drop pat.length,
        ((c :: a') ++ pat).drop pat.length, ?_, ?_⟩
      · simp [splitAfterFirst, hp, List.cons_append]
      · have hshape : c :: (a' ++ (pat ++ r)) = ((c :: a') ++ pat) ++ r := by
          simp [List.append_assoc]
        rw [hshape]
        have hlen : pat.length ≤ ((c :: a') ++ pat).length := by
          simp
          omega
        rw [List.drop_append_of_le_length hlen]
    · obtain ⟨t, u, h1, h2⟩ := splitAfterFirst_suffix pat a' r
      refine ⟨t, u, ?_, h2⟩
      rw [List.cons_append, splitAfterFirst, if_neg (by simpa using hp)]
      exact h1

/-- Soundness of the ordered-pair search: success exhibits `p` then `q` in
order. -/
theorem orderedPair_sound (p q s : List Char) (h : orderedPair p q s = true) :
    ∃ a b c, s = a ++ p ++ b ++ q ++ c := by
  rw [orderedPair] at h
  cases h1 : splitAfterFirst p s with
  | none => rw [h1] at h; cases h
  | some t =>
    rw [h1] at h
    have h' : (splitAfterFirst q t).isSome = true := h
    cases h2 : splitAfterFirst q t with
    | none => rw [h2] at h'; cases h'
    | some t' =>
      rcases splitAfterFirst_eq p s t h1 with ⟨a, ha⟩
      rcases splitAfterFirst_eq q t t' h2 with ⟨b, hb⟩
      exact ⟨a, b, t', by rw [ha, hb]; simp [List.append_assoc]⟩

/-- Completeness of the ordered-pair search. -/
theorem orderedPair_complete (p q a b c : List Char) :
    orderedPair p q (a ++ p ++ b ++ q ++ c) = true := by
  obtain ⟨t, u, h1, h2⟩ := splitAfterFirst_suffix p a (b ++ q ++ c)
  have hshape : a ++ p ++ b ++ q ++ c = a ++ (p ++ (b ++ q ++ c)) := by
    simp [List.append_assoc]
  rw [orderedPair, hshape, h1]
  obtain ⟨t2, u2, h3, h4⟩ := splitAfterFirst_suffix q (u ++ b) c
  have hshape2 : t = (u ++ b) ++ (q ++ c) := by
    rw [h2]; simp [List.append_assoc]
  show (splitAfterFirst q t).isSome = true
  rw [hshape2, h3]
  rfl

/-- `takeWhile` stops exactly at the first failing element. -/
theorem takeWhile_middle (pr : Char → Bool) :
    ∀ (xs : List Char) (y : Char) (ys : List Char),
      (∀ x ∈ xs, pr x = true) → pr y = false →
      (xs ++ y :: ys).takeWhile pr = xs
  | [], y, ys, _, hy => by simp [List.takeWhile_cons, hy]
  | x :: xs', y, ys, hall, hy => by
    have hx := hall x (List.mem_cons_self x xs')
    simp only [List.cons_append, List.takeWhile_cons, hx, if_true, ite_true]
    rw [takeWhile_middle pr xs' y ys (fun z hz => hall z (List.mem_cons_of_mem x hz)) hy]

/-- Equation: a position whose brace-delimited interior contains the ordered
tokens is reported immediately. -/
theorem findIntentMatch_cons_hit (c : Char) (rest : List Char) (i : Nat)
    (hc1 : c = '\x7b') (hc2 : '\x7d' ∈ rest)
    (hop : orderedPair intentTok apprTok (rest.takeWhile (fun d => d != '\x7d')) = true) :
    findIntentMatch (c :: rest) i =
      some (i, i + (rest.takeWhile (fun d => d != '\x7d')).length + 2) := by
  subst hc1
  simp [findIntentMatch, hc2, hop]

/-- Equation: a position that is not an opening brace with a closing brace
after it is skipped. -/
theorem findIntentMatch_cons_miss1 (c : Char) (rest : List Char) (i : Nat)
    (hc : ¬(c = '\x7b' ∧ '\x7d' ∈ rest)) :
    findIntentMatch (c :: rest) i = findIntentMatch rest (i + 1) := by
  simp [findIntentMatch, hc]

/-- Equation: a position whose interior lacks the ordered tokens is skipped. -/
theorem findIntentMatch_cons_miss2 (c : Char) (rest : List Char) (i : Nat)
    (hop : ¬ orderedPair intentTok apprTok (rest.takeWhile (fun d => d != '\x7d')) = true) :
    findIntentMatch (c :: rest) i = findIntentMatch rest (i + 1) := by
  by_cases hc : c = '\x7b' ∧ '\x7d' ∈ rest
  · simp [findIntentMatch, hc, hop]
  · simp [findIntentMatch, hc]

/-- The scan's index parameter only offsets the reported span. -/
theorem findIntentMatch_shift : ∀ (l : List Char) (i : Nat),
    findIntentMatch l i = (findIntentMatch l 0).map (fun pr => (pr.1 + i, pr.2 + i))
  | [], _ => rfl
  | c :: rest, i => by
    by_cases hc : c = '\x7b' ∧ '\x7d' ∈ rest
    · by_cases hop :
          orderedPair intentTok apprTok (rest.takeWhile (fun d => d != '\x7d')) = true
      · rw [findIntentMatch_cons_hit c rest i hc.1 hc.2 hop,
          findIntentMatch_cons_hit c rest 0 hc.1 hc.2 hop]
        simp only [Option.map_some', Option.some.injEq, Prod.mk.injEq]
        constructor <;> omega
      · rw [findIntentMatch_cons_miss2 c rest i hop,
          findIntentMatch_cons_miss2 c rest 0 hop,
          findIntentMatch_shift rest (i + 1), findIntentMatch_shift rest 1]
        cases findIntentMatch rest 0 with
        | none => rfl
        | some pr =>
          simp only [Option.map_some', Option.some.injEq, Prod.mk.injEq]
          constructor <;> omega
    · rw [findIntentMatch_cons_miss1 c rest i hc, findIntentMatch_cons_miss1 c rest 0 hc,
        findIntentMatch_shift rest (i + 1), findIntentMatch_shift rest 1]
      cases findIntentMatch rest 0 with
      | none => rfl
      | some pr =>
        simp only [Option.map_some', Option.some.injEq, Prod.mk.injEq]
        constructor <;> omega

/-- Soundness of the regex scan: a reported span is a genuine match of the
intent pattern. -/
theorem findIntentMatch_sound : ∀ (l : List Char) (s e : Nat),
    findIntentMatch l 0 = some (s, e) → spanIsIntentMatch l s e
  | [], s, e, h => by simp [findIntentMatch] at h
  | c :: rest, s, e, h => by
    by_cases hc : c = '\x7b' ∧ '\x7d' ∈ rest
    · by_cases hop :
          orderedPair intentTok apprTok (rest.takeWhile (fun d => d != '\x7d')) = true
      · rw [findIntentMatch_cons_hit c rest 0 hc.1 hc.2 hop] at h
        simp only [Option.some.injEq, Prod.mk.injEq] at h
        have hdw : rest.dropWhile (fun d => d != '\x7d') ≠ [] := by
          intro hnil
          have := List.dropWhile_eq_nil_iff.mp hnil '\x7d' hc.2
          simp at this
        obtain ⟨d, ds, hds⟩ := List.exists_cons_of_ne_nil hdw
        have hdhead : d = '\x7d' := by
          have hh : (rest.dropWhile (fun d => d != '\x7d')).head? = some d := by
            rw [hds]; rfl
          have hnp := List.head?_dropWhile_not (fun d => d != '\x7d') rest
          rw [hh] at hnp
          simpa using hnp
        have hrest : rest = rest.takeWhile (fun d => d != '\x7d') ++
            '\x7d' :: ds := by
          conv_lhs => rw [← List.takeWhile_append_dropWhile
            (p := fun d => d != '\x7d') (l := rest)]
          rw [hds, hdhead]
        refine ⟨[], rest.takeWhile (fun d => d != '\x7d'), ds, ?_, ?_, ?_, ?_, ?_⟩
        · rw [List.nil_append, hc.1, ← hrest]
        · simpa using h.1
        · obtain ⟨hs0, he0⟩ := h
          omega
        · intro hmem
          have := List.mem_takeWhile_imp hmem
          simp at this
        · exact orderedPair_sound _ _ _ hop
      · rw [findIntentMatch_cons_miss2 c rest 0 hop, findIntentMatch_shift rest 1] at h
        cases hf : findIntentMatch rest 0 with
        | none => rw [hf] at h; cases h
        | some pr =>
          rw [hf] at h
          simp only [Option.map_some', Option.some.injEq, Prod.mk.injEq] at h
          have hspan := findIntentMatch_sound rest pr.1 pr.2 (by rw [hf])
          obtain ⟨before, interior, after, heq, hlen, he, hnotin, hsplit⟩ := hspan
          refine ⟨c :: before, interior, after, ?_, ?_, ?_, hnotin, hsplit⟩
          · rw [List.cons_append, heq]
          · simp only [List.length_cons]
            omega
          · omega
    · rw [findIntentMatch_cons_miss1 c rest 0 hc, findIntentMatch_shift rest 1] at h
      cases hf : findIntentMatch rest 0 with
      | none => rw [hf] at h; cases h
      | some pr =>
        rw [hf] at h
        simp only [Option.map_some', Option.some.injEq, Prod.mk.injEq] at h
        have hspan := findIntentMatch_sound rest pr.1 pr.2 (by rw [hf])
        obtain ⟨before, interior, after, heq, hlen, he, hnotin, hsplit⟩ := hspan
        refine ⟨c :: before, interior, after, ?_, ?_, ?_, hnotin, hsplit⟩
        · rw [List.cons_append, heq]
        · simp only [List.length_cons]
          omega
        · omega

/-- Minimality of the regex scan: wherever a genuine match exists, the scan
reports a span starting no later. -/
theorem findIntentMatch_min_aux :
    ∀ (before interior after : List Char), '\x7d' ∉ interior →
      (∃ a b c, interior = a ++ intentTok ++ b ++ apprTok ++ c) →
      ∃ s e, findIntentMatch (before ++ '\x7b' ::
        (interior ++ '\x7d' :: after)) 0 = some (s, e) ∧ s ≤ before.length
  | [], interior, after, hnotin, hsplit => by
    have hmem : '\x7d' ∈ interior ++ '\x7d' :: after := by simp
    have htw : (interior ++ '\x7d' :: after).takeWhile (fun d => d != '\x7d') =
        interior := by
      refine takeWhile_middle _ interior '\x7d' after (fun x hx => ?_) (by simp)
      simp only [bne_iff_ne, ne_eq, decide_eq_true_eq]
      intro hxe
      exact hnotin (hxe ▸ hx)
    obtain ⟨a, b, c, habc⟩ := hsplit
    have hop : orderedPair intentTok apprTok
        ((interior ++ '\x7d' :: after).takeWhile (fun d => d != '\x7d')) = true := by
      rw [htw, habc]; exact orderedPair_complete _ _ _ _ _
    refine ⟨0, interior.length + 2, ?_, Nat.le_refl 0⟩
    rw [List.nil_append, findIntentMatch_cons_hit '\x7b' _ 0 rfl hmem hop, htw]
    simp
  | c0 :: before', interior, after, hnotin, hsplit => by
    obtain ⟨s, e, hf, hle⟩ := findIntentMatch_min_aux before' interior after hnotin hsplit
    by_cases hc : c0 = '\x7b' ∧
        '\x7d' ∈ before' ++ '\x7b' :: (interior ++ '\x7d' :: after)
    · by_cases hop : orderedPair intentTok apprTok
          ((before' ++ '\x7b' :: (interior ++ '\x7d' :: after)).takeWhile
            (fun d => d != '\x7d')) = true
      · refine ⟨0, 0 + ((before' ++ '\x7b' :: (interior ++ '\x7d' :: after)).takeWhile
          (fun d => d != '\x7d')).length + 2, ?_, Nat.zero_le _⟩
        rw [List.cons_append, findIntentMatch_cons_hit c0 _ 0 hc.1 hc.2 hop]
      · refine ⟨s + 1, e + 1, ?_, by simp only [List.length_cons]; omega⟩
        rw [List.cons_append, findIntentMatch_cons_miss2 c0 _ 0 hop,
          findIntentMatch_shift _ 1, hf]
        rfl
    · refine ⟨s + 1, e + 1, ?_, by simp only [List.length_cons]; omega⟩
      rw [List.cons_append, findIntentMatch_cons_miss1 c0 _ 0 hc,
        findIntentMatch_shift _ 1, hf]
      rfl

/-- Minimality, stated on the declarative span predicate. -/
theorem findIntentMatch_min (l : List Char) (sp ep : Nat)
    (hspan : spanIsIntentMatch l sp ep) :
    ∃ s e, findIntentMatch l 0 = some (s, e) ∧ s ≤ sp := by
  obtain ⟨before, interior, after, heq, hlen, _, hnotin, hsplit⟩ := hspan
  obtain ⟨s, e, hf, hle⟩ := findIntentMatch_min_aux before interior after hnotin hsplit
  exact ⟨s, e, by rw [heq]; exact hf, by omega⟩

/-- When the scan fails, no genuine match exists anywhere in the text. -/
theorem findIntentMatch_none (l : List Char) (h : findIntentMatch l 0 = none)
    (sp ep : Nat) : ¬ spanIsIntentMatch l sp ep := by
  intro hspan
  obtain ⟨s, e, hf, _⟩ := findIntentMatch_min l sp ep hspan
  rw [h] at hf
  cases hf

/-! ### Claim theorems -/

/-- C1: the sliding-window invariant (`len ≤ N`, system message kept at index
0, at most one copy) is violated by the code at capacity 1: after appending a
system message and one user message, the buffer holds three messages with the
system message duplicated, because the Python slice `messages[-(1 - 1):]` is
`messages[-0:]`, i.e. the whole list.  The claim's capacity-3 example does
hold (second conjunct). -/
theorem conversation_window_capacity_one_violation :
    run_adds 1 [] [("system", "S"), ("user", "1")] =
      [⟨"system", "S"⟩, ⟨"system", "S"⟩, ⟨"user", "1"⟩] ∧
    (run_adds 1 [] [("system", "S"), ("user", "1")]).length = 3 ∧
    run_adds 3 [] [("system", "S"), ("user", "1"), ("assistant", "2"),
        ("user", "3"), ("assistant", "4")] =
      [⟨"system", "S"⟩, ⟨"user", "3"⟩, ⟨"assistant", "4"⟩] := by
  decide

/-- C9: the syntactically valid event `data: {"choices": []}` makes
`chat_stream` raise an uncaught `IndexError` (only `json.JSONDecodeError` is
caught per event), aborting the stream even though a `[DONE]` event follows. -/
theorem chat_stream_empty_choices_raises :
    chat_stream decodeEx noInterrupt
      ["data: \x7b\"choices\": []\x7d", "data: [DONE]"] =
      .error .indexError := by
  decide

/-- C8: `get_cost` returns `none` for a model absent from the pricing table,
and otherwise the exact `tokens / 1e6 × price` costs with their sum; being a
pure function of the tracker state, repeated calls agree. -/
theorem get_cost_spec (t : CostTracker) :
    (t.pricing = none → t.get_cost = none) ∧
    (∀ p : ℚ × ℚ, t.pricing = some p →
      t.get_cost = some ⟨t.total_input_tokens, t.total_output_tokens,
        (t.total_input_tokens : ℚ) / 1000000 * p.1,
        (t.total_output_tokens : ℚ) / 1000000 * p.2,
        (t.total_input_tokens : ℚ) / 1000000 * p.1 +
          (t.total_output_tokens : ℚ) / 1000000 * p.2⟩) ∧
    t.get_cost = t.get_cost := by
  refine ⟨fun h => ?_, fun p hp => ?_, rfl⟩
  · simp [CostTracker.get_cost, h]
  · simp [CostTracker.get_cost, hp]

/-- Witness for C8 at the claim's example: the `anthropic/claude-haiku-4.5`
prices are `(1, 5)` per million, and totals `(1000000, 2000000)` give costs
`(1, 10, 11)`. -/
theorem get_cost_spec_witness :
    CostTracker.pricing ⟨"anthropic/claude-haiku-4.5", 1000000, 2000000⟩ = some (1, 5) ∧
    CostTracker.get_cost ⟨"anthropic/claude-haiku-4.5", 1000000, 2000000⟩ =
      some ⟨1000000, 2000000, 1, 10, 11⟩ := by
  have h := (get_cost_spec ⟨"anthropic/claude-haiku-4.5", 1000000, 2000000⟩).2.1 (1, 5)
    (by norm_num [CostTracker.pricing, PRICING_TABLE, List.find?])
  refine ⟨by norm_num [CostTracker.pricing, PRICING_TABLE, List.find?], h.trans ?_⟩
  norm_num

/-- C6: under the external strategy with an HTTP-200 classifier response, the
verdict is `(true, "")` exactly when the trimmed, lowered response starts with
`safe`; any other response is blocked with the category-code formatting of the
stripped classifier text (or of the fallback string when the response is
empty). -/
theorem check_external_verdict_spec (content : String) :
    (check_external_verdict content = (true, "") ↔
      pyStartsWith (pyLower (pyStrip content)) "safe" = true) ∧
    (pyStartsWith (pyLower (pyStrip content)) "safe" = false →
      check_external_verdict content =
        (false, format_guardrail_reason
          (if content ≠ "" then pyStrip content else "Content blocked by safety guardrail"))) := by
  by_cases h : pyStartsWith (pyLower (pyStrip content)) "safe" = true
  · refine ⟨⟨fun _ => h, fun _ => ?_⟩, fun hf => absurd h (by simp [hf])⟩
    simp [check_external_verdict, h]
  · refine ⟨⟨fun hv => ?_, fun ht => absurd ht h⟩, fun _ => ?_⟩
    · exact absurd hv (by simp [check_external_verdict, h])
    · simp [check_external_verdict, h]

/-- Witness for C6: `safe` is allowed; `unsafe` is blocked with the formatted
fallback reason. -/
theorem check_external_verdict_spec_witness :
    check_external_verdict "safe" = (true, "") ∧
    pyStartsWith (pyLower (pyStrip "unsafe")) "safe" = false ∧
    check_external_verdict "unsafe" = (false, "Content blocked by safety guardrail") := by
  refine ⟨(check_external_verdict_spec "safe").1.mpr (by decide), by decide, ?_⟩
  exact ((check_external_verdict_spec "unsafe").2 (by decide)).trans (by decide)

/-- Counterexample to C2 as stated: on a stream whose second payload is the
valid JSON `{"choices": []}`, `chat_stream` does not terminate successfully
with the fragments of the other payloads (here `"Hello"`) — it raises
`IndexError`. -/
theorem chat_stream_valid_json_crash_cex :
    chat_stream decodeEx noInterrupt
      ["data: \x7b\"choices\": [\x7b\"delta\": \x7b\"content\": \"Hello\"\x7d\x7d]\x7d",
       "data: \x7b\"choices\": []\x7d", "data: [DONE]"] = .error .indexError ∧
    specFragments decodeEx
      ["data: \x7b\"choices\": [\x7b\"delta\": \x7b\"content\": \"Hello\"\x7d\x7d]\x7d",
       "data: \x7b\"choices\": []\x7d", "data: [DONE]"] = [.str "Hello"] ∧
    ∀ u, chat_stream decodeEx noInterrupt
      ["data: \x7b\"choices\": [\x7b\"delta\": \x7b\"content\": \"Hello\"\x7d\x7d]\x7d",
       "data: \x7b\"choices\": []\x7d", "data: [DONE]"] ≠ .ok ([.str "Hello"], u) := by
  refine ⟨by decide, by decide, fun u h => ?_⟩
  rw [show chat_stream decodeEx noInterrupt
      ["data: \x7b\"choices\": [\x7b\"delta\": \x7b\"content\": \"Hello\"\x7d\x7d]\x7d",
       "data: \x7b\"choices\": []\x7d", "data: [DONE]"] = .error .indexError from by decide] at h
  exact absurd h (by simp)

/-- Counterexample to C5 as stated: in
`{"a": "intent", "b": "appropriate"}tail` no JSON object has an `intent` or
an `appropriate` key (the quoted words occur only as string values), so the
claim requires the not-found fallback `(true, marker, full text)`; the code
instead matches the span on the quoted substrings and returns
`(true, "Unknown intent", "tail")`. -/
theorem parse_intent_substring_cex :
    parse_intent_response decodeEx "\x7b\"a\": \"intent\", \"b\": \"appropriate\"\x7dtail" =
      .ok (true, .str "Unknown intent", "tail") ∧
    parse_intent_response decodeEx "\x7b\"a\": \"intent\", \"b\": \"appropriate\"\x7dtail" ≠
      .ok (true, .str "Intent analysis not found",
        "\x7b\"a\": \"intent\", \"b\": \"appropriate\"\x7dtail") := by
  decide

/-- C2 (amended): on any event-line stream whose decoded payloads before the
terminator are all benign (per-event extraction raises no exception),
`chat_stream` ignores blank lines and lines without the `data: ` prefix,
terminates successfully at the first `data: [DONE]` payload without needing
any trailing event, and yields in order exactly the present-and-non-empty
`choices[0].delta.content` values of the other decoded payloads. -/
theorem chat_stream_fragments_spec (decode : String → Option Json) (lines : List String)
    (hben : (decodedChunks decode lines).all chunkOk = true) :
    ∃ u', chat_stream decode noInterrupt lines = .ok (specFragments decode lines, u') :=
  chat_stream_loop_fragments decode lines 0 none hben

/-- Witness for C2 at the `Hello`/`World` example, including a blank line, a
non-`data: ` line, and a buffered event after `[DONE]` that is not consumed;
the concatenated fragments are `"Hello World"`. -/
theorem chat_stream_fragments_spec_witness :
    (decodedChunks decodeEx exStreamLines).all chunkOk = true ∧
    (∃ u', chat_stream decodeEx noInterrupt exStreamLines =
      .ok (specFragments decodeEx exStreamLines, u')) ∧
    specFragments decodeEx exStreamLines = [.str "Hello", .str " World"] ∧
    chat_stream decodeEx noInterrupt exStreamLines = .ok ([.str "Hello", .str " World"], none) ∧
    "Hello" ++ " World" = "Hello World" :=
  ⟨by decide, chat_stream_fragments_spec decodeEx exStreamLines (by decide),
   by decide, by decide, by decide⟩

/-- C3: once the interrupt flag reads true (from index `k` on), `chat_stream`
behaves exactly as on the stream truncated to the first `k` lines: it stops at
the next line boundary, consumes nothing further, waits for no `[DONE]`, and
yields no further fragment even though events remain buffered. -/
theorem chat_stream_interrupt_truncates (decode : String → Option Json)
    (intr : Nat → Bool) (k : Nat) (hk : ∀ j, k ≤ j → intr j = true)
    (lines : List String) :
    chat_stream decode intr lines = chat_stream decode intr (lines.take k) := by
  have h := chat_stream_loop_take decode intr k hk lines 0 none
  simpa [chat_stream] using h

/-- Witness for C3: the flag becomes true at line index 2 of a four-line
stream; the result equals the run on the first two lines only, and the third
content fragment `"A"` is never yielded. -/
theorem chat_stream_interrupt_truncates_witness :
    chat_stream decodeEx (fun j => decide (2 ≤ j)) exStreamLinesIntr =
      chat_stream decodeEx (fun j => decide (2 ≤ j)) (exStreamLinesIntr.take 2) ∧
    chat_stream decodeEx (fun j => decide (2 ≤ j)) exStreamLinesIntr =
      .ok ([.str "Hello", .str " World"], none) :=
  ⟨chat_stream_interrupt_truncates decodeEx (fun j => decide (2 ≤ j)) 2
      (fun j hj => decide_eq_true hj) exStreamLinesIntr,
   by decide⟩

/-- C4: a `data: ` event whose payload fails to decode as JSON is skipped
without aborting: the whole run equals the run on the stream with that event
removed, so fragments from valid events before and after it are still
yielded. -/
theorem chat_stream_skips_undecodable (decode : String → Option Json)
    (pre post : List String) (bad : String)
    (hsw : pyStartsWith bad "data: " = true) (hnd : pyDrop bad 6 ≠ "[DONE]")
    (hdec : decode (pyDrop bad 6) = none) :
    chat_stream decode noInterrupt (pre ++ bad :: post) =
      chat_stream decode noInterrupt (pre ++ post) :=
  chat_stream_loop_skips decode bad hsw hnd hdec pre post 0 none

/-- Witness for C4 at the `A`/`B` example: the malformed payload
`\x7bnot json` is skipped, no exception is raised, and the output is exactly
`"A"` then `"B"`. -/
theorem chat_stream_skips_undecodable_witness :
    chat_stream decodeEx noInterrupt exStreamLinesAB =
      chat_stream decodeEx noInterrupt
        (["data: \x7b\"choices\": [\x7b\"delta\": \x7b\"content\": \"A\"\x7d\x7d]\x7d"] ++
         ["data: \x7b\"choices\": [\x7b\"delta\": \x7b\"content\": \"B\"\x7d\x7d]\x7d",
          "data: [DONE]"]) ∧
    chat_stream decodeEx noInterrupt exStreamLinesAB = .ok ([.str "A", .str "B"], none) ∧
    "A" ++ "B" = "AB" :=
  ⟨chat_stream_skips_undecodable decodeEx
      ["data: \x7b\"choices\": [\x7b\"delta\": \x7b\"content\": \"A\"\x7d\x7d]\x7d"]
      ["data: \x7b\"choices\": [\x7b\"delta\": \x7b\"content\": \"B\"\x7d\x7d]\x7d",
       "data: [DONE]"]
      "data: \x7bnot json" (by decide) (by decide) (by decide),
   by decide, by decide⟩

/-- C7: formatting of a raw classifier reason. With an `S<digits>` code found
and its mapped category name not already mentioned (case-insensitively), the
result is `<CategoryName> (<code>)`; with the name already mentioned, the
result is the text with a leading `unsafe` stripped and trimmed; with no
S-code, the stripped remainder, or the fallback string when nothing remains. -/
theorem format_guardrail_reason_spec (reason : String) (h : reason ≠ "") :
    (∀ code name, findSCode reason.toList = some code →
      (LLAMA_GUARD_CATEGORIES.find? (fun e => e.1 == code)).map (·.2) = some name →
      (occursIn (pyLower name).toList (pyLower reason).toList = false →
        format_guardrail_reason reason = name ++ " (" ++ code ++ ")") ∧
      (occursIn (pyLower name).toList (pyLower reason).toList = true →
        format_guardrail_reason reason = cleanedUnsafe reason)) ∧
    (findSCode reason.toList = none →
      (cleanedUnsafe reason ≠ "" → format_guardrail_reason reason = cleanedUnsafe reason) ∧
      (cleanedUnsafe reason = "" →
        format_guardrail_reason reason = "Content blocked by safety guardrail")) := by
  constructor
  · intro code name hcode hname
    have hcode' : findSCode reason.data = some code := hcode
    constructor
    · intro hno
      have hno' : occursIn (pyLower name).data (pyLower reason).data = false := hno
      simp [format_guardrail_reason, h, hcode', hname, hno']
    · intro hyes
      have hyes' : occursIn (pyLower name).data (pyLower reason).data = true := hyes
      simp [format_guardrail_reason, h, hcode', hname, hyes']
  · intro hnone
    have hnone' : findSCode reason.data = none := hnone
    constructor
    · intro hne
      simp [format_guardrail_reason, h, hnone', hne]
    · intro he
      simp [format_guardrail_reason, h, hnone', he]

/-- Witness for C7 at the claim's example `"unsafe\nS9"`: code `S9` maps to
`Indiscriminate Weapons`, not already mentioned, so the formatted reason is
`Indiscriminate Weapons (S9)`, which contains both the category name and the
code. -/
theorem format_guardrail_reason_spec_witness :
    findSCode "unsafe\nS9".toList = some "S9" ∧
    (LLAMA_GUARD_CATEGORIES.find? (fun e => e.1 == "S9")).map (·.2) =
      some "Indiscriminate Weapons" ∧
    format_guardrail_reason "unsafe\nS9" = "Indiscriminate Weapons (S9)" ∧
    occursIn "Indiscriminate Weapons".toList "Indiscriminate Weapons (S9)".toList = true ∧
    occursIn "S9".toList "Indiscriminate Weapons (S9)".toList = true :=
  ⟨by decide, by decide,
   ((format_guardrail_reason_spec "unsafe\nS9" (by decide)).1 "S9" "Indiscriminate Weapons"
      (by decide) (by decide)).1 (by decide),
   by decide, by decide⟩

/-- Appending always leaves the appended message at the tail, for any capacity
of at least 2 (eviction keeps the most recent messages, which include the one
just appended). -/
theorem add_message_getLast (N : Nat) (hN : 2 ≤ N) (msgs : List Message)
    (role content : String) :
    (add_message N msgs role content).getLast? = some ⟨role, content⟩ := by
  cases msgs with
  | nil =>
    have h1 : 1 ≤ N := by omega
    simp [add_message, apply_sliding_window, h1]
  | cons m0 ms =>
    rw [add_message, show (m0 :: ms) ++ [({role := role, content := content} : Message)] =
      m0 :: (ms ++ [({role := role, content := content} : Message)]) from rfl]
    by_cases hlen : (m0 :: (ms ++ [({role := role, content := content} : Message)])).length ≤ N
    · simp only [apply_sliding_window, if_pos hlen]
      rw [show m0 :: (ms ++ [({role := role, content := content} : Message)]) =
        (m0 :: ms) ++ [({role := role, content := content} : Message)] from rfl]
      exact List.getLast?_concat _
    · simp only [apply_sliding_window, if_neg hlen]
      by_cases hrole : m0.role == "system"
      · rw [if_pos hrole, pySliceFrom, if_neg (by omega : ¬(0 : Int) ≤ -((N : Int) - 1))]
        rw [show m0 :: (ms ++ [({role := role, content := content} : Message)]) =
          (m0 :: ms) ++ [({role := role, content := content} : Message)] from rfl]
        have hd : (((((m0 :: ms) ++ [({role := role, content := content} : Message)]).length : Int) +
            -((N : Int) - 1)).toNat) ≤ (m0 :: ms).length := by
          simp only [List.length_append, List.length_cons, List.length_nil]
          rw [Int.toNat_le]
          push_cast
          omega
        rw [List.drop_append_of_le_length hd]
        rw [show m0 :: (List.drop (((((m0 :: ms) ++
              [({role := role, content := content} : Message)]).length : Int) +
              -((N : Int) - 1)).toNat) (m0 :: ms) ++
            [({role := role, content := content} : Message)]) =
          (m0 :: List.drop (((((m0 :: ms) ++
              [({role := role, content := content} : Message)]).length : Int) +
              -((N : Int) - 1)).toNat) (m0 :: ms)) ++
            [({role := role, content := content} : Message)] from rfl]
        exact List.getLast?_concat _
      · rw [if_neg hrole, pySliceFrom, if_neg (by omega : ¬(0 : Int) ≤ -(N : Int))]
        rw [show m0 :: (ms ++ [({role := role, content := content} : Message)]) =
          (m0 :: ms) ++ [({role := role, content := content} : Message)] from rfl]
        have hd : (((((m0 :: ms) ++ [({role := role, content := content} : Message)]).length : Int) +
            -(N : Int)).toNat) ≤ (m0 :: ms).length := by
          simp only [List.length_append, List.length_cons, List.length_nil]
          rw [Int.toNat_le]
          push_cast
          omega
        rw [List.drop_append_of_le_length hd]
        exact List.getLast?_concat _

/-- C10: when the input guardrail allows the message and the stream then
raises a transport or API error, `_process_message` has already appended the
user message (the snapshot sent to the API is exactly the appended history),
the appended user message remains at the tail of the final history (no
rollback), and no assistant message is appended: the final history is exactly
the pre-stream history, and the error is reported. -/
theorem process_message_stream_error_keeps_user (N : Nat) (hN : 2 ≤ N)
    (conv0 : List Message) (userMsg : String) (inputVerdict : Bool × String)
    (hallow : inputVerdict.1 = true) (e : PyErr) (interrupted useIntent : Bool)
    (decode : String → Option Json) (outputVerdict : String → Bool × String) :
    process_message N conv0 userMsg inputVerdict (.error e) interrupted useIntent
        decode outputVerdict =
      ⟨add_message N conv0 "user" userMsg, some (add_message N conv0 "user" userMsg), true⟩ ∧
    (add_message N conv0 "user" userMsg).getLast? = some ⟨"user", userMsg⟩ := by
  constructor
  · simp [process_message, hallow]
  · exact add_message_getLast N hN conv0 "user" userMsg

/-- Witness for C10: default capacity 20, a seeded system prompt, an allowed
user message `hi`, and a stream that raises: the user message is in the sent
snapshot and remains in the history, with no assistant message added. -/
theorem process_message_stream_error_keeps_user_witness :
    process_message 20 [⟨"system", "sys"⟩] "hi" (true, "") (.error .indexError) false false
        decodeEx (fun _ => (true, "")) =
      ⟨[⟨"system", "sys"⟩, ⟨"user", "hi"⟩], some [⟨"system", "sys"⟩, ⟨"user", "hi"⟩], true⟩ ∧
    (add_message 20 [⟨"system", "sys"⟩] "user" "hi").getLast? = some ⟨"user", "hi"⟩ :=
  ⟨((process_message_stream_error_keeps_user 20 (by decide) [⟨"system", "sys"⟩] "hi" (true, "")
      (by decide) .indexError false false decodeEx (fun _ => (true, ""))).1).trans (by decide),
   (process_message_stream_error_keeps_user 20 (by decide) [⟨"system", "sys"⟩] "hi" (true, "")
      (by decide) .indexError false false decodeEx (fun _ => (true, ""))).2⟩

/-- C5 (amended): `parse_intent_response` locates the leftmost brace-delimited
span, closed at the first following brace, whose interior contains the quoted
token `"intent"` and then `"appropriate"` as substrings (the regex checks
substrings, not keys).  With no such span, or a span that fails to decode, it
returns `(true, marker, full text)`; with a decoded object it reads the
`intent`/`appropriate`/`reason` fields by key with defaults
(`"Unknown intent"`, `true`, `""`): truthy `appropriate` gives
`(true, intent, text-after-span trimmed)`, falsy gives
`(false, formatted block reason, "")` with no answer body. -/
theorem parse_intent_response_spec (decode : String → Option Json) (response : String) :
    (findIntentMatch response.toList 0 = none →
      (∀ sp ep, ¬ spanIsIntentMatch response.toList sp ep) ∧
      parse_intent_response decode response =
        .ok (true, .str "Intent analysis not found", response)) ∧
    (∀ s e, findIntentMatch response.toList 0 = some (s, e) →
      spanIsIntentMatch response.toList s e ∧
      (∀ sp ep, spanIsIntentMatch response.toList sp ep → s ≤ sp) ∧
      (decode (intentSpan response s e) = none →
        parse_intent_response decode response =
          .ok (true, .str "Intent parsing failed", response)) ∧
      (∀ fs, decode (intentSpan response s e) = some (.obj fs) →
        (jsonTruthy ((dictGet? fs "appropriate").getD (.bool true)) = true →
          parse_intent_response decode response =
            .ok (true, (dictGet? fs "intent").getD (.str "Unknown intent"),
              pyStrip (String.mk (response.toList.drop e)))) ∧
        (jsonTruthy ((dictGet? fs "appropriate").getD (.bool true)) = false →
          parse_intent_response decode response =
            .ok (false, intentBlockReason fs, "")))) := by
  constructor
  · intro hnone
    refine ⟨fun sp ep => findIntentMatch_none response.toList hnone sp ep, ?_⟩
    have hnone' : findIntentMatch response.data 0 = none := hnone
    simp [parse_intent_response, hnone']
  · intro s e hsome
    have hsome' : findIntentMatch response.data 0 = some (s, e) := hsome
    refine ⟨findIntentMatch_sound response.toList s e hsome, ?_, ?_, ?_⟩
    · intro sp ep hsp
      obtain ⟨s', e', hf, hle⟩ := findIntentMatch_min response.toList sp ep hsp
      rw [hsome] at hf
      simp only [Option.some.injEq, Prod.mk.injEq] at hf
      omega
    · intro hdec
      simp [parse_intent_response, hsome', hdec]
    · intro fs hfs
      constructor
      · intro htr
        simp [parse_intent_response, hsome', hfs, htr]
      · intro hfalse
        simp [parse_intent_response, intentBlockReason, hsome', hfs, hfalse]

/-- Witness for C5 at the spec's examples: the truthy-`appropriate` response
parses to `(true, "ask weather", "It is sunny.")`, and a falsy one with a
reason parses to `(false, "<intent>. Reason: <reason>", "")`. -/
theorem parse_intent_response_spec_witness :
    findIntentMatch
      "\x7b\"intent\":\"ask weather\",\"appropriate\":true,\"reason\":\"\"\x7d\nIt is sunny.".toList
      0 = some (0, 55) ∧
    decodeEx (intentSpan
      "\x7b\"intent\":\"ask weather\",\"appropriate\":true,\"reason\":\"\"\x7d\nIt is sunny."
      0 55) =
      some (.obj [("intent", .str "ask weather"), ("appropriate", .bool true),
        ("reason", .str "")]) ∧
    parse_intent_response decodeEx
      "\x7b\"intent\":\"ask weather\",\"appropriate\":true,\"reason\":\"\"\x7d\nIt is sunny." =
      .ok (true, .str "ask weather", "It is sunny.") ∧
    parse_intent_response decodeEx
      "\x7b\"intent\":\"harmful request\",\"appropriate\":false,\"reason\":\"violates policy\"\x7d\nNo." =
      .ok (false, .str "harmful request. Reason: violates policy", "") :=
  ⟨by decide, by decide,
   ((((parse_intent_response_spec decodeEx
      "\x7b\"intent\":\"ask weather\",\"appropriate\":true,\"reason\":\"\"\x7d\nIt is sunny.").2
      0 55 (by decide)).2.2.2
      [("intent", .str "ask weather"), ("appropriate", .bool true), ("reason", .str "")]
      (by decide)).1 (by decide)).trans (by decide),
   by decide⟩

end TerminalChat
